import Mathlib

/-!
Shallow embedding of `src/main.py` of the `dmarc_reporter` repository.

The program parses DMARC aggregate reports: it walks an ElementTree
`iterparse` event stream (close events only), first scanning metadata
(`DmarcStatistics.parse_metadata`, lines 79-94), normalising the report id
(`DmarcStatistics.__init__`, lines 62-67), and then folding `record`
elements into pass/fail counters and per-result frequency dictionaries
(`DmarcStatistics.parse_records`, lines 96-128).

Modelling conventions:
* XML elements are a tree of (tag, optional text, children); `find`,
  `findall` and `findtext` follow ElementTree semantics for slash-separated
  child paths (`findtext` yields `""` for an element without text and
  `none` when the element is absent).
* Python exceptions that can escape the parse are the explicit error
  values of `PyErr`; an uncaught exception is `Except.error`.
* Python strings are Lean `String`s; character-level operations go through
  `String.toList`.  `s.split("@", 1)[0]` (the part before the first `@`)
  is `takeWhile (· != '@')` of the character list.
* Python `int(str)` is `parsePyInt` (optional surrounding whitespace, an
  optional sign, then decimal digits; underscore digit grouping is not
  modelled).  `int(None)` is a `TypeError`, a non-numeric string a
  `ValueError`.
* `datetime.datetime.fromtimestamp(n).isoformat()` is abstracted to the
  integer timestamp `n` itself: the claims only concern presence/absence
  of the value, never its rendering.
* Python dictionaries keyed by `findtext` results (which may be `None`)
  are association lists `List (Option String × Nat)` in insertion order.
-/

namespace DmarcReporter

/-! ## XML element trees and ElementTree lookup -/

/-- An XML element: tag, text content (absent for an empty element), and
child elements in document order. -/
inductive XmlElem where
  | mk (tag : String) (text : Option String) (children : List XmlElem)

/-- The element's tag. -/
def XmlElem.tag : XmlElem → String
  | .mk t _ _ => t

/-- The element's text, `none` when the element has no text node. -/
def XmlElem.text : XmlElem → Option String
  | .mk _ t _ => t

/-- The element's children in document order. -/
def XmlElem.children : XmlElem → List XmlElem
  | .mk _ _ c => c

/-- One `iterparse` event: the event name (always `"end"` for this
program, which requests close events only) and the closed element. -/
abbrev Event := String × XmlElem

/-- All descendants reached by following the given tag segments from the
element, in document order (ElementTree `findall` on a split path). -/
def findallSegs (e : XmlElem) : List String → List XmlElem
  | [] => [e]
  | s :: rest => (e.children.filter (fun c => c.tag == s)).flatMap (fun c => findallSegs c rest)

/-- Split a character list on a separator character (Python
`str.split(sep)` on a nonempty separator of length one). -/
def splitOnChar (sep : Char) : List Char → List (List Char)
  | [] => [[]]
  | c :: cs =>
    if c = sep then
      [] :: splitOnChar sep cs
    else
      match splitOnChar sep cs with
      | [] => [[c]]
      | l :: ls => (c :: l) :: ls

/-- The tag segments of a slash-separated ElementTree path. -/
def pathSegs (path : String) : List String :=
  (splitOnChar '/' path.toList).map (fun l => ⟨l⟩)

/-- ElementTree `Element.findall(path)` for a slash-separated child path. -/
def findall (e : XmlElem) (path : String) : List XmlElem :=
  findallSegs e (pathSegs path)

/-- ElementTree `Element.find(path)`: the first match in document order. -/
def find (e : XmlElem) (path : String) : Option XmlElem :=
  (findall e path).head?

/-- ElementTree `Element.findtext(path)`: `none` when no element matches,
otherwise the matched element's text, with `""` for an empty element. -/
def findtext (e : XmlElem) (path : String) : Option String :=
  (find e path).map (fun c => c.text.getD "")

/-! ## Python exceptions and `int()` -/

/-- The Python exceptions that can escape the embedded code paths. -/
inductive PyErr where
  | typeError
  | valueError
  | attributeError
  deriving DecidableEq

/-- Decimal value of a digit list (digits already validated). -/
def digitsToNat (l : List Char) : Nat :=
  l.foldl (fun acc c => 10 * acc + (c.toNat - 48)) 0

/-- The value of a nonempty all-digit character list, else `none`. -/
def digitsVal (l : List Char) : Option Nat :=
  if !l.isEmpty && l.all (fun c => c.isDigit) then some (digitsToNat l) else none

/-- Python `str.strip()` on a character list: drop whitespace from both
ends. -/
def pyStrip (l : List Char) : List Char :=
  ((l.dropWhile Char.isWhitespace).reverse.dropWhile Char.isWhitespace).reverse

/-- Python `int(s)` on a string: optional surrounding whitespace, optional
sign, decimal digits.  `none` models the `ValueError` raised otherwise. -/
def parsePyInt (s : String) : Option Int :=
  match pyStrip s.toList with
  | [] => none
  | c :: cs =>
    if c = '-' then (digitsVal cs).map (fun n => -(n : Int))
    else if c = '+' then (digitsVal cs).map (fun n => (n : Int))
    else (digitsVal (c :: cs)).map (fun n => (n : Int))

/-! ## Python dictionaries of result counts

`self.spfresult` / `self.dkimresult` are dictionaries from `findtext`
results (possibly `None`) to counts; modelled as association lists in
insertion order with unique keys. -/

/-- A result-count dictionary. -/
abbrev ResMap := List (Option String × Nat)

/-- Membership test, Python `k in d`. -/
def containsKey : ResMap → Option String → Bool
  | [], _ => false
  | (k', _) :: rest, k => k' == k || containsKey rest k

/-- Lookup with default `0` (a key never inserted has count `0`). -/
def lookupCount : ResMap → Option String → Nat
  | [], _ => 0
  | (k', v) :: rest, k => if k' = k then v else lookupCount rest k

/-- Python `d[k] += 1` on a present key: bump the (unique) entry. -/
def bump : ResMap → Option String → ResMap
  | [], _ => []
  | (k', v) :: rest, k => if k' = k then (k', v + 1) :: rest else (k', v) :: bump rest k

/-- The code's `if k not in d: d[k] = 1 else: d[k] += 1` (lines 115-118
and 125-128). -/
def incrKey (m : ResMap) (k : Option String) : ResMap :=
  if containsKey m k then bump m k else m ++ [(k, 1)]

/-! ## Report identity normalisation (`__init__`, lines 62-67) -/

/-- The two-step report-id cleanup of lines 62-67 on character lists:
truncate at the first `@` when one is present (`split("@", 1)[0]`), then
strip a leading `organisation + "."` prefix (`[len(org)+1:]`) from the
result of the first step. -/
def normalizeChars (rid org : List Char) : List Char :=
  let r1 := if rid.contains '@' then rid.takeWhile (fun c => c != '@') else rid
  if (org ++ ['.']).isPrefixOf r1 then r1.drop (org.length + 1) else r1

/-- The two-step report-id cleanup of lines 62-67, on plain strings. -/
def normalize (rid org : String) : String :=
  ⟨normalizeChars rid.toList org.toList⟩

/-- Lines 62-67 as executed on the attribute values, which may be `None`:
`"@" in None` and `None + '.'` both raise `TypeError`. -/
def normalizeStep (report_id organisation : Option String) : Except PyErr String :=
  match report_id with
  | none => .error .typeError
  | some rid =>
    match organisation with
    | none =>
      -- step 1 runs first, but its result is dead: `self.organisation + '.'`
      -- raises `TypeError` before anything else is observable
      .error .typeError
    | some org => .ok (normalize rid org)

example : normalize "google.com.xf83a" "google.com" = "xf83a" := by decide
example : normalize "2021.report1@mx.example.com" "google.com" = "2021.report1" := by decide
example : parsePyInt "  -42 " = some (-42) := by decide
example : parsePyInt "soon" = none := by decide
example : parsePyInt "" = none := by decide

/-! ## Phase 1: metadata scan (`parse_metadata`, lines 79-94) -/

/-- The metadata attributes of `DmarcStatistics`; all start out as the
class-attribute value `None` (lines 51-57). -/
structure MetaState where
  organisation : Option String
  report_id : Option String
  start : Option Int
  end_ : Option Int
  domain : Option String
  deriving DecidableEq

/-- The initial attribute values (lines 51-57). -/
def metaInit : MetaState := ⟨none, none, none, none, none⟩

/-- Lines 84-91: `int(findtext(...))` guarded by `except TypeError`.
A missing element (`findtext` = `None`) raises `TypeError`, which is
caught and leaves the field `None`; a present but non-numeric text raises
`ValueError`, which is NOT caught and aborts the parse. -/
def tryTimestamp : Option String → Except PyErr (Option Int)
  | none => .ok none
  | some s =>
    match parsePyInt s with
    | some n => .ok (some n)
    | none => .error .valueError

/-- Lines 82-91: the field extraction performed on the close of a
`report_metadata` element.  `domain` is untouched here. -/
def extractMeta (md : MetaState) (elem : XmlElem) : Except PyErr MetaState :=
  match tryTimestamp (findtext elem "date_range/begin") with
  | .error e => .error e
  | .ok s =>
    match tryTimestamp (findtext elem "date_range/end") with
    | .error e => .error e
    | .ok e' =>
      .ok { organisation := findtext elem "org_name"
            report_id := findtext elem "report_id"
            start := s
            end_ := e'
            domain := md.domain }

/-- Lines 79-94: scan close events; on `report_metadata` extract the
metadata fields, on `policy_published` record the policy domain and
`break`, handing the unconsumed remainder of the stream back. -/
def parse_metadata (md : MetaState) : List Event → Except PyErr (MetaState × List Event)
  | [] => .ok (md, [])
  | (ev, elem) :: rest =>
    match (if ev == "end" && elem.tag == "report_metadata" then extractMeta md elem else .ok md) with
    | .error e => .error e
    | .ok md1 =>
      if ev == "end" && elem.tag == "policy_published" then
        .ok ({ md1 with domain := findtext elem "domain" }, rest)
      else
        parse_metadata md1 rest

/-! ## Phase 2: record scan (`parse_records`, lines 96-128) -/

/-- The counters and result dictionaries initialised on lines 69-72. -/
structure RecordStats where
  passed : Nat
  failed : Nat
  spfresult : ResMap
  dkimresult : ResMap
  deriving DecidableEq

/-- Lines 69-72: all counters zero, both dictionaries empty. -/
def statsInit : RecordStats := ⟨0, 0, [], []⟩

/-- Lines 110-118 / 120-128: fold a sub-result list into a dictionary,
skipping entries whose `domain` differs from the policy domain and
bumping the count of the entry's `result` text otherwise. -/
def processResults (m : ResMap) (domain : Option String) : List XmlElem → ResMap
  | [] => m
  | e :: rest =>
    if findtext e "domain" != domain then
      processResults m domain rest
    else
      processResults (incrKey m (findtext e "result")) domain rest

/-- Line 101: `record.find("row/source_ip").text`; `None.text` raises
`AttributeError` when the element is missing. -/
def getSource (rec : XmlElem) : Except PyErr (Option String) :=
  match find rec "row/source_ip" with
  | none => .error .attributeError
  | some e => .ok e.text

/-- Line 102: `int(record.find("row/count").text)`: `AttributeError` when
the element is missing, `TypeError` when it has no text, `ValueError`
when the text is non-numeric. -/
def getCount (rec : XmlElem) : Except PyErr Int :=
  match find rec "row/count" with
  | none => .error .attributeError
  | some e =>
    match e.text with
    | none => .error .typeError
    | some s =>
      match parsePyInt s with
      | some n => .ok n
      | none => .error .valueError

/-- Lines 100-128: the body run for one closed `record` element.  The
`source` and `count` values are read (and may raise) but are never used
afterwards.  `policy.findtext(...)` on line 105 raises `AttributeError`
when `row/policy_evaluated` is absent — after the count conversion. -/
def parseRecord (domain : Option String) (st : RecordStats) (rec : XmlElem) :
    Except PyErr RecordStats :=
  match getSource rec with
  | .error e => .error e
  | .ok _source =>
    match getCount rec with
    | .error e => .error e
    | .ok _count =>
      match find rec "row/policy_evaluated" with
      | none => .error .attributeError
      | some policy =>
        let st1 :=
          if findtext policy "dkim" == some "pass" || findtext policy "spf" == some "pass" then
            { st with passed := st.passed + 1 }
          else
            { st with failed := st.failed + 1 }
        let st2 := { st1 with
          dkimresult := processResults st1.dkimresult domain (findall rec "auth_results/dkim") }
        let st3 := { st2 with
          spfresult := processResults st2.spfresult domain (findall rec "auth_results/spf") }
        .ok st3

/-- Lines 105-108 as a predicate: the record's policy-evaluated dkim or
spf verdict is `pass` (`false` is irrelevant when `row/policy_evaluated`
is absent, since the record body errors out in that case). -/
def recordPasses (rec : XmlElem) : Bool :=
  match find rec "row/policy_evaluated" with
  | none => false
  | some policy =>
    findtext policy "dkim" == some "pass" || findtext policy "spf" == some "pass"

/-- Lines 96-128: fold every remaining `record` close event into the
statistics. -/
def parse_records (domain : Option String) (st : RecordStats) :
    List Event → Except PyErr RecordStats
  | [] => .ok st
  | (ev, elem) :: rest =>
    if ev == "end" && elem.tag == "record" then
      match parseRecord domain st elem with
      | .error e => .error e
      | .ok st' => parse_records domain st' rest
    else
      parse_records domain st rest

/-- A close event for a `record` element. -/
def isRecordEnd (ev : Event) : Bool :=
  ev.1 == "end" && ev.2.tag == "record"

/-- The number of `record` close events in a stream. -/
def countRecordEnds (evs : List Event) : Nat :=
  (evs.filter isRecordEnd).length

/-! ## The finished `DmarcStatistics` object (`__init__`, lines 59-77) -/

/-- Line 76/77, one summand of the comprehension: `k + "=" + str(v)`
raises `TypeError` when the dictionary key is `None`. -/
def entryInfo : Option String × Nat → Except PyErr String
  | (none, _) => .error .typeError
  | (some k, v) => .ok (k ++ "=" ++ toString v)

/-- The full list comprehension of line 76/77 (evaluated before the
join). -/
def mapEntries : ResMap → Except PyErr (List String)
  | [] => .ok []
  | p :: rest =>
    match entryInfo p with
    | .error e => .error e
    | .ok s =>
      match mapEntries rest with
      | .error e => .error e
      | .ok l => .ok (s :: l)

/-- Python `", ".join(l)`. -/
def joinComma : List String → String
  | [] => ""
  | [s] => s
  | s :: rest => s ++ ", " ++ joinComma rest

/-- `', '.join([k + "=" + str(v) for k, v in d.items()])`. -/
def infoJoin (m : ResMap) : Except PyErr String :=
  match mapEntries m with
  | .error e => .error e
  | .ok l => .ok (joinComma l)

/-- The attributes of a fully constructed `DmarcStatistics` object. -/
structure DmarcStatistics where
  organisation : Option String
  report_id : String
  start : Option Int
  end_ : Option Int
  domain : Option String
  passed : Nat
  failed : Nat
  spfresult : ResMap
  dkimresult : ResMap
  spfinfo : String
  dkiminfo : String
  deriving DecidableEq

/-- `DmarcStatistics.__init__` (lines 59-77) on an event stream: metadata
scan, report-id normalisation, record scan, and the summary strings.  Any
uncaught exception aborts construction — no partial object escapes. -/
def DmarcStatistics.ofEvents (events : List Event) : Except PyErr DmarcStatistics :=
  match parse_metadata metaInit events with
  | .error e => .error e
  | .ok (md, rest) =>
    match normalizeStep md.report_id md.organisation with
    | .error e => .error e
    | .ok rid =>
      match parse_records md.domain statsInit rest with
      | .error e => .error e
      | .ok st =>
        match infoJoin st.spfresult with
        | .error e => .error e
        | .ok spfinfo =>
          match infoJoin st.dkimresult with
          | .error e => .error e
          | .ok dkiminfo =>
            .ok { organisation := md.organisation
                  report_id := rid
                  start := md.start
                  end_ := md.end_
                  domain := md.domain
                  passed := st.passed
                  failed := st.failed
                  spfresult := st.spfresult
                  dkimresult := st.dkimresult
                  spfinfo := spfinfo
                  dkiminfo := dkiminfo }

/-! ## Concrete sample data -/

/-- A well-formed `report_metadata` element. -/
def metaElemOk : XmlElem :=
  .mk "report_metadata" none
    [ .mk "org_name" (some "ex.org") []
    , .mk "report_id" (some "7Fx3") []
    , .mk "date_range" none [ .mk "begin" (some "100") [], .mk "end" (some "200") [] ] ]

/-- A `report_metadata` element whose `date_range/begin` text is not
numeric. -/
def metaElemBadBegin : XmlElem :=
  .mk "report_metadata" none
    [ .mk "org_name" (some "ex.org") []
    , .mk "report_id" (some "7Fx3") []
    , .mk "date_range" none [ .mk "begin" (some "soon") [], .mk "end" (some "200") [] ] ]

/-- A `report_metadata` element with no `date_range` element at all. -/
def metaElemNoDates : XmlElem :=
  .mk "report_metadata" none
    [ .mk "org_name" (some "ex.org") []
    , .mk "report_id" (some "7Fx3") [] ]

/-- A `policy_published` element for domain `ex.org`. -/
def policyElem : XmlElem :=
  .mk "policy_published" none [ .mk "domain" (some "ex.org") [] ]

/-- A record whose policy-evaluated dkim verdict is `pass` but whose only
DKIM sub-result is signed by a third-party domain; its SPF sub-result is
for the policy domain. -/
def recordPassElem : XmlElem :=
  .mk "record" none
    [ .mk "row" none
        [ .mk "source_ip" (some "192.0.2.1") []
        , .mk "count" (some "5") []
        , .mk "policy_evaluated" none
            [ .mk "dkim" (some "pass") [], .mk "spf" (some "fail") [] ] ]
    , .mk "auth_results" none
        [ .mk "dkim" none [ .mk "domain" (some "other.example") [], .mk "result" (some "pass") [] ]
        , .mk "spf" none [ .mk "domain" (some "ex.org") [], .mk "result" (some "softfail") [] ] ] ]

/-- A record failing both policy-evaluated verdicts, with a matching-domain
DKIM sub-result. -/
def recordFailElem : XmlElem :=
  .mk "record" none
    [ .mk "row" none
        [ .mk "source_ip" (some "198.51.100.7") []
        , .mk "count" (some "2") []
        , .mk "policy_evaluated" none
            [ .mk "dkim" (some "fail") [], .mk "spf" (some "fail") [] ] ]
    , .mk "auth_results" none
        [ .mk "dkim" none [ .mk "domain" (some "ex.org") [], .mk "result" (some "fail") [] ] ] ]

/-- A record with no `row/count` element. -/
def recordNoCountElem : XmlElem :=
  .mk "record" none
    [ .mk "row" none
        [ .mk "source_ip" (some "203.0.113.9") []
        , .mk "policy_evaluated" none [ .mk "dkim" (some "pass") [] ] ] ]

/-- A complete, well-formed event stream: metadata, policy, two records. -/
def sampleEvents : List Event :=
  [ ("end", metaElemOk), ("end", policyElem)
  , ("end", recordPassElem), ("end", recordFailElem) ]

example :
    parse_records (some "ex.org") statsInit [("end", recordPassElem), ("end", recordFailElem)] =
      .ok ⟨1, 1, [(some "softfail", 1)], [(some "fail", 1)]⟩ := by rfl

example :
    DmarcStatistics.ofEvents sampleEvents =
      .ok ⟨some "ex.org", "7Fx3", some 100, some 200, some "ex.org", 1, 1,
           [(some "softfail", 1)], [(some "fail", 1)], "softfail=1", "fail=1"⟩ := by rfl

/-! ## Dictionary lemmas -/

theorem lookupCount_eq_zero_of_not_containsKey (m : ResMap) (k : Option String)
    (h : containsKey m k = false) : lookupCount m k = 0 := by
  induction m with
  | nil => rfl
  | cons p rest ih =>
    obtain ⟨k', v⟩ := p
    simp only [containsKey, Bool.or_eq_false_iff, beq_eq_false_iff_ne, ne_eq] at h
    simp [lookupCount, h.1, ih h.2]

theorem lookupCount_append_self (m : ResMap) (k : Option String)
    (h : containsKey m k = false) : lookupCount (m ++ [(k, 1)]) k = 1 := by
  induction m with
  | nil => simp [lookupCount]
  | cons p rest ih =>
    obtain ⟨k', v⟩ := p
    simp only [containsKey, Bool.or_eq_false_iff, beq_eq_false_iff_ne, ne_eq] at h
    simp [lookupCount, h.1, ih h.2]

theorem lookupCount_append_ne (m : ResMap) (k r : Option String) (h : k ≠ r) :
    lookupCount (m ++ [(k, 1)]) r = lookupCount m r := by
  induction m with
  | nil => simp [lookupCount, h]
  | cons p rest ih =>
    obtain ⟨k', v⟩ := p
    by_cases hr : k' = r <;> simp [lookupCount, hr, ih]

theorem lookupCount_bump_self (m : ResMap) (k : Option String)
    (h : containsKey m k = true) : lookupCount (bump m k) k = lookupCount m k + 1 := by
  induction m with
  | nil => simp [containsKey] at h
  | cons p rest ih =>
    obtain ⟨k', v⟩ := p
    by_cases hk : k' = k
    · simp [bump, lookupCount, hk]
    · simp only [containsKey, Bool.or_eq_true, beq_iff_eq, hk, false_or] at h
      simp [bump, lookupCount, hk, ih h]

theorem lookupCount_bump_ne (m : ResMap) (k r : Option String) (h : k ≠ r) :
    lookupCount (bump m k) r = lookupCount m r := by
  induction m with
  | nil => rfl
  | cons p rest ih =>
    obtain ⟨k', v⟩ := p
    by_cases hk : k' = k
    · subst hk
      simp [bump, lookupCount, h]
    · by_cases hr : k' = r
      · subst hr
        simp [bump, lookupCount, hk]
      · simp [bump, lookupCount, hk, hr, ih]

theorem lookupCount_incrKey_self (m : ResMap) (k : Option String) :
    lookupCount (incrKey m k) k = lookupCount m k + 1 := by
  by_cases h : containsKey m k = true
  · simp [incrKey, h, lookupCount_bump_self m k h]
  · have h' : containsKey m k = false := by simpa using h
    simp [incrKey, h', lookupCount_append_self m k h',
      lookupCount_eq_zero_of_not_containsKey m k h']

theorem lookupCount_incrKey_ne (m : ResMap) (k r : Option String) (h : k ≠ r) :
    lookupCount (incrKey m k) r = lookupCount m r := by
  by_cases hc : containsKey m k = true
  · simp [incrKey, hc, lookupCount_bump_ne m k r h]
  · have h' : containsKey m k = false := by simpa using hc
    simp [incrKey, h', lookupCount_append_ne m k r h]

/-- The per-result counting behaviour of the sub-result loops: each pass
over a sub-result list adds, for every key `r`, exactly the number of
sub-results whose `domain` text equals the policy domain and whose
`result` text is `r`. -/
theorem processResults_count (d r : Option String) :
    ∀ (elems : List XmlElem) (m : ResMap),
    lookupCount (processResults m d elems) r =
      lookupCount m r +
        (elems.filter (fun e => findtext e "domain" == d && findtext e "result" == r)).length := by
  intro elems
  induction elems with
  | nil => intro m; simp [processResults]
  | cons e es ih =>
    intro m
    by_cases hd : findtext e "domain" = d
    · by_cases hr : findtext e "result" = r
      · simp [processResults, List.filter_cons, hd, hr, ih, lookupCount_incrKey_self]
        omega
      · simp [processResults, List.filter_cons, hd, hr, ih, lookupCount_incrKey_ne, hr]
    · have hb : (findtext e "domain" == d) = false := by simpa using hd
      simp [processResults, List.filter_cons, hd, hb, ih]

/-! ## Record-level lemmas -/

/-- Everything a successful run of the per-record body guarantees: the
counters move by exactly one according to the policy-evaluated verdicts,
and the two dictionaries are exactly one sub-result pass each. -/
theorem parseRecord_ok (d : Option String) (st : RecordStats) (rec : XmlElem)
    (st' : RecordStats) (h : parseRecord d st rec = .ok st') :
    st'.passed + st'.failed = st.passed + st.failed + 1 ∧
    (recordPasses rec = true → st'.passed = st.passed + 1 ∧ st'.failed = st.failed) ∧
    (recordPasses rec = false → st'.passed = st.passed ∧ st'.failed = st.failed + 1) ∧
    st'.dkimresult = processResults st.dkimresult d (findall rec "auth_results/dkim") ∧
    st'.spfresult = processResults st.spfresult d (findall rec "auth_results/spf") := by
  unfold parseRecord at h
  cases hs : getSource rec with
  | error e => rw [hs] at h; simp at h
  | ok s =>
    rw [hs] at h
    cases hc : getCount rec with
    | error e => rw [hc] at h; simp at h
    | ok n =>
      rw [hc] at h
      cases hp : find rec "row/policy_evaluated" with
      | none => rw [hp] at h; simp at h
      | some policy =>
        rw [hp] at h
        have hrp : recordPasses rec =
            (findtext policy "dkim" == some "pass" || findtext policy "spf" == some "pass") := by
          simp [recordPasses, hp]
        by_cases hpass :
            (findtext policy "dkim" == some "pass" || findtext policy "spf" == some "pass") = true
        · simp only [hpass, if_true] at h
          rw [Except.ok.injEq] at h
          subst h
          simp [hrp, hpass]
          omega
        · have hpass' :
              (findtext policy "dkim" == some "pass" || findtext policy "spf" == some "pass")
                = false := by simpa using hpass
          simp only [hpass', Bool.false_eq_true, if_false] at h
          rw [Except.ok.injEq] at h
          subst h
          simp [hrp, hpass']
          omega

/-- A successful line-101 read means the `row/source_ip` element exists. -/
theorem getSource_ok (rec : XmlElem) (src : Option String) (h : getSource rec = .ok src) :
    (find rec "row/source_ip").isSome := by
  unfold getSource at h
  split at h
  · simp at h
  · rename_i e hfind
    simp [hfind]

/-- A successful line-102 conversion means the `row/count` element
exists, has text, and that text converts with `int`. -/
theorem getCount_ok (rec : XmlElem) (n : Int) (h : getCount rec = .ok n) :
    ∃ ec s, find rec "row/count" = some ec ∧ ec.text = some s ∧ parsePyInt s = some n := by
  unfold getCount at h
  split at h
  · simp at h
  · rename_i ec hfind
    split at h
    · simp at h
    · rename_i s htext
      split at h
      · rename_i n' hparse
        rw [Except.ok.injEq] at h
        exact ⟨ec, s, hfind, htext, by rw [hparse, h]⟩
      · simp at h

/-- A successful run of the per-record body requires `row/source_ip` to
exist and `row/count` to exist, carry text, and convert with `int`. -/
theorem parseRecord_ok_wf (d : Option String) (st : RecordStats) (rec : XmlElem)
    (st' : RecordStats) (h : parseRecord d st rec = .ok st') :
    (find rec "row/source_ip").isSome ∧
    ∃ ec s n, find rec "row/count" = some ec ∧ ec.text = some s ∧ parsePyInt s = some n := by
  unfold parseRecord at h
  cases hs : getSource rec with
  | error e => rw [hs] at h; simp at h
  | ok src =>
    rw [hs] at h
    cases hc : getCount rec with
    | error e => rw [hc] at h; simp at h
    | ok n =>
      refine ⟨getSource_ok rec src hs, ?_⟩
      obtain ⟨ec, s, hfind, htext, hparse⟩ := getCount_ok rec n hc
      exact ⟨ec, s, n, hfind, htext, hparse⟩

/-! ## Stream-level lemmas -/

/-- The record scan adds one to `passed + failed` for every `record`
close event, and for nothing else. -/
theorem parse_records_ok_sum (d : Option String) :
    ∀ (evs : List Event) (st st' : RecordStats),
    parse_records d st evs = .ok st' →
    st'.passed + st'.failed = st.passed + st.failed + countRecordEnds evs := by
  intro evs
  induction evs with
  | nil =>
    intro st st' h
    simp only [parse_records, Except.ok.injEq] at h
    subst h
    simp [countRecordEnds]
  | cons ev rest ih =>
    intro st st' h
    obtain ⟨e, elem⟩ := ev
    have hcount : ∀ b : Bool, (e == "end" && elem.tag == "record") = b →
        countRecordEnds ((e, elem) :: rest) = countRecordEnds rest + (if b then 1 else 0) := by
      intro b hb
      cases b <;> simp [countRecordEnds, List.filter_cons, isRecordEnd, hb]
    by_cases hre : (e == "end" && elem.tag == "record") = true
    · simp only [parse_records, hre, if_true] at h
      cases hpr : parseRecord d st elem with
      | error er => rw [hpr] at h; simp at h
      | ok st1 =>
        rw [hpr] at h
        have h1 := (parseRecord_ok d st elem st1 hpr).1
        have h2 := ih st1 st' h
        have h3 := hcount true hre
        simp only [if_true] at h3
        omega
    · have hre' : (e == "end" && elem.tag == "record") = false := by simpa using hre
      simp only [parse_records, hre', Bool.false_eq_true, if_false] at h
      have h2 := ih st st' h
      have h3 := hcount false hre'
      simp only [Bool.false_eq_true, if_false] at h3
      omega

/-- A successful record scan forces every `record` close event in the
stream to pass the per-record well-formedness checks. -/
theorem parse_records_ok_all_wf (d : Option String) :
    ∀ (evs : List Event) (st st' : RecordStats),
    parse_records d st evs = .ok st' →
    ∀ ev ∈ evs, isRecordEnd ev = true →
      (find ev.2 "row/source_ip").isSome ∧
      ∃ ec s n, find ev.2 "row/count" = some ec ∧ ec.text = some s ∧ parsePyInt s = some n := by
  intro evs
  induction evs with
  | nil => intro st st' h ev hev; simp at hev
  | cons ev0 rest ih =>
    intro st st' h ev hev hre
    obtain ⟨e, elem⟩ := ev0
    rcases List.mem_cons.mp hev with hev0 | hevr
    · subst hev0
      have hre' : (e == "end" && elem.tag == "record") = true := hre
      simp only [parse_records, hre', if_true] at h
      cases hpr : parseRecord d st elem with
      | error er => rw [hpr] at h; simp at h
      | ok st1 => exact parseRecord_ok_wf d st elem st1 hpr
    · by_cases hre0 : (e == "end" && elem.tag == "record") = true
      · simp only [parse_records, hre0, if_true] at h
        cases hpr : parseRecord d st elem with
        | error er => rw [hpr] at h; simp at h
        | ok st1 =>
          rw [hpr] at h
          exact ih st1 st' h ev hevr hre
      · have hre0' : (e == "end" && elem.tag == "record") = false := by simpa using hre0
        simp only [parse_records, hre0', Bool.false_eq_true, if_false] at h
        exact ih st st' h ev hevr hre

/-- The metadata scan stops at the first `policy_published` close event:
it returns exactly the events after that close, with the policy domain
taken from the closing element. -/
theorem parse_metadata_break :
    ∀ (pre : List Event) (md : MetaState) (pe : XmlElem) (post : List Event)
      (md' : MetaState) (rest : List Event),
    (∀ ev ∈ pre, ¬(ev.1 = "end" ∧ ev.2.tag = "policy_published")) →
    pe.tag = "policy_published" →
    parse_metadata md (pre ++ ("end", pe) :: post) = .ok (md', rest) →
    rest = post ∧ md'.domain = findtext pe "domain" := by
  intro pre
  induction pre with
  | nil =>
    intro md pe post md' rest _ hpe h
    have hcomp : parse_metadata md (("end", pe) :: post) =
        .ok ({ md with domain := findtext pe "domain" }, post) := by
      simp [parse_metadata, hpe]
    rw [List.nil_append, hcomp, Except.ok.injEq] at h
    injection h with h1 h2
    subst h2
    rw [← h1]
    exact ⟨rfl, rfl⟩
  | cons x xs ih =>
    intro md pe post md' rest hpre hpe h
    obtain ⟨e, elem⟩ := x
    have hx := hpre (e, elem) (List.mem_cons_self _ _)
    have hcond : (e == "end" && elem.tag == "policy_published") = false := by
      cases hq : (e == "end" && elem.tag == "policy_published") with
      | false => rfl
      | true => exact absurd (by simpa using hq) hx
    simp only [List.cons_append, parse_metadata] at h
    cases hstep :
        (if e == "end" && elem.tag == "report_metadata" then extractMeta md elem else .ok md) with
    | error er => rw [hstep] at h; simp at h
    | ok md1 =>
      rw [hstep] at h
      simp only [hcond, Bool.false_eq_true, if_false] at h
      exact ih md1 pe post md' rest (fun ev hev => hpre ev (List.mem_cons_of_mem _ hev)) hpe h

/-! ## Normalisation lemmas -/

theorem toList_mk (l : List Char) : (String.mk l).toList = l := rfl

theorem takeWhile_until_amp (pre suf : List Char) (h : '@' ∉ pre) :
    (pre ++ '@' :: suf).takeWhile (fun c => c != '@') = pre := by
  induction pre with
  | nil => simp
  | cons c cs ih =>
    have hc : c ≠ '@' := fun hh => h (hh ▸ List.mem_cons_self c cs)
    have hcs : '@' ∉ cs := fun hh => h (List.mem_cons_of_mem c hh)
    simp [List.takeWhile_cons, hc, ih hcs]

/-- An id without `@` and without the `org + "."` prefix is left alone by
the two cleanup steps. -/
theorem normalizeChars_clean (rid org : List Char)
    (h1 : rid.contains '@' = false)
    (h2 : (org ++ ['.']).isPrefixOf rid = false) :
    normalizeChars rid org = rid := by
  have h1' : '@' ∉ rid := by simpa using h1
  have h2' : ¬ (org ++ ['.']) <+: rid := by
    intro hp
    rw [← List.isPrefixOf_iff_prefix, h2] at hp
    exact absurd hp (by simp)
  simp [normalizeChars, h1', h2']

/-- Truncation really happens at the first `@`, and the prefix strip
applies to the truncated id: normalising `pre ++ "@" ++ suf` is the same
as normalising the `@`-free `pre` alone. -/
theorem normalizeChars_amp (pre suf org : List Char) (h : '@' ∉ pre) :
    normalizeChars (pre ++ '@' :: suf) org = normalizeChars pre org := by
  simp [normalizeChars, h, takeWhile_until_amp pre suf h]

/-! ## Claim theorems -/

/-- Claim C1: each `record` close event moves exactly one of the two
counters by exactly 1 — `passed` when the policy-evaluated dkim or spf
verdict is `pass`, `failed` otherwise — and the record's `count` value
never weights either counter, so after a successful scan
`passed + failed` equals the number of `record` close events. -/
theorem claim1_record_counting :
    (∀ (d : Option String) (st : RecordStats) (rec : XmlElem) (st' : RecordStats),
      parseRecord d st rec = .ok st' →
      st'.passed + st'.failed = st.passed + st.failed + 1 ∧
      (recordPasses rec = true → st'.passed = st.passed + 1 ∧ st'.failed = st.failed) ∧
      (recordPasses rec = false → st'.passed = st.passed ∧ st'.failed = st.failed + 1)) ∧
    (∀ (d : Option String) (evs : List Event) (st' : RecordStats),
      parse_records d statsInit evs = .ok st' →
      st'.passed + st'.failed = countRecordEnds evs) := by
  constructor
  · intro d st rec st' h
    obtain ⟨h1, h2, h3, _, _⟩ := parseRecord_ok d st rec st' h
    exact ⟨h1, h2, h3⟩
  · intro d evs st' h
    have hs := parse_records_ok_sum d evs statsInit st' h
    simpa [statsInit] using hs

theorem claim1_record_counting_witness :
    parse_records (some "ex.org") statsInit
        [("end", recordPassElem), ("end", recordFailElem)] =
      .ok ⟨1, 1, [(some "softfail", 1)], [(some "fail", 1)]⟩ ∧
    (1 : Nat) + 1 = countRecordEnds [("end", recordPassElem), ("end", recordFailElem)] := by
  refine ⟨by rfl, ?_⟩
  exact claim1_record_counting.2 (some "ex.org")
    [("end", recordPassElem), ("end", recordFailElem)]
    ⟨1, 1, [(some "softfail", 1)], [(some "fail", 1)]⟩ (by rfl)

/-- Claim C2: a DKIM sub-result bumps `dkimresult[result]` by exactly 1
exactly when its `domain` equals the policy domain — a sub-result for a
different domain contributes 0, even when the record's policy-evaluated
dkim verdict is `pass` (which still bumps `passed`) — and SPF sub-results
are treated symmetrically against `spfresult`. -/
theorem claim2_subresult_attribution :
    ∀ (d : Option String) (st : RecordStats) (rec : XmlElem) (st' : RecordStats),
    parseRecord d st rec = .ok st' →
    (∀ r : Option String,
      lookupCount st'.dkimresult r =
        lookupCount st.dkimresult r +
          ((findall rec "auth_results/dkim").filter
            (fun e => findtext e "domain" == d && findtext e "result" == r)).length ∧
      lookupCount st'.spfresult r =
        lookupCount st.spfresult r +
          ((findall rec "auth_results/spf").filter
            (fun e => findtext e "domain" == d && findtext e "result" == r)).length) ∧
    (recordPasses rec = true → st'.passed = st.passed + 1) := by
  intro d st rec st' h
  obtain ⟨_, h2, _, hd, hs⟩ := parseRecord_ok d st rec st' h
  refine ⟨?_, fun hp => (h2 hp).1⟩
  intro r
  rw [hd, hs]
  exact ⟨processResults_count d r _ _, processResults_count d r _ _⟩

theorem claim2_subresult_attribution_witness :
    parseRecord (some "ex.org") statsInit recordPassElem =
      .ok ⟨1, 0, [(some "softfail", 1)], []⟩ ∧
    recordPasses recordPassElem = true ∧
    lookupCount ([] : ResMap) (some "pass") =
      lookupCount statsInit.dkimresult (some "pass") +
        ((findall recordPassElem "auth_results/dkim").filter
          (fun e => findtext e "domain" == some "ex.org" &&
            findtext e "result" == some "pass")).length := by
  refine ⟨by rfl, by rfl, ?_⟩
  have h := claim2_subresult_attribution (some "ex.org") statsInit recordPassElem
    ⟨1, 0, [(some "softfail", 1)], []⟩ (by rfl)
  exact (h.1 (some "pass")).1

/-- Claim C3: the metadata scan terminates on the first `policy_published`
close event, consuming no further events, and only the events after that
point are examined for records: a successfully constructed statistics
object takes its domain from that close and counts exactly the `record`
close events occurring after it. -/
theorem claim3_metadata_before_records :
    (∀ (md : MetaState) (pre post : List Event) (pe : XmlElem) (md' : MetaState)
        (rest : List Event),
      (∀ ev ∈ pre, ¬(ev.1 = "end" ∧ ev.2.tag = "policy_published")) →
      pe.tag = "policy_published" →
      parse_metadata md (pre ++ ("end", pe) :: post) = .ok (md', rest) →
      rest = post ∧ md'.domain = findtext pe "domain") ∧
    (∀ (pre post : List Event) (pe : XmlElem) (ds : DmarcStatistics),
      (∀ ev ∈ pre, ¬(ev.1 = "end" ∧ ev.2.tag = "policy_published")) →
      pe.tag = "policy_published" →
      DmarcStatistics.ofEvents (pre ++ ("end", pe) :: post) = .ok ds →
      ds.domain = findtext pe "domain" ∧ ds.passed + ds.failed = countRecordEnds post) := by
  constructor
  · intro md pre post pe
    exact parse_metadata_break pre md pe post
  · intro pre post pe ds hpre hpe h
    unfold DmarcStatistics.ofEvents at h
    split at h
    · simp at h
    · rename_i md rest hm
      obtain ⟨hrest, hdom⟩ := parse_metadata_break pre metaInit pe post md rest hpre hpe hm
      subst hrest
      split at h
      · simp at h
      · rename_i rid hn
        split at h
        · simp at h
        · rename_i st hr
          split at h
          · simp at h
          · rename_i spfinfo hsj
            split at h
            · simp at h
            · rename_i dkiminfo hdj
              rw [Except.ok.injEq] at h
              subst h
              have hsum := parse_records_ok_sum md.domain rest statsInit st hr
              refine ⟨hdom, ?_⟩
              simpa [statsInit] using hsum

theorem claim3_metadata_before_records_witness :
    DmarcStatistics.ofEvents sampleEvents =
      .ok ⟨some "ex.org", "7Fx3", some 100, some 200, some "ex.org", 1, 1,
           [(some "softfail", 1)], [(some "fail", 1)], "softfail=1", "fail=1"⟩ ∧
    (some "ex.org" : Option String) = findtext policyElem "domain" ∧
    (1 : Nat) + 1 = countRecordEnds [("end", recordPassElem), ("end", recordFailElem)] := by
  refine ⟨by rfl, ?_, ?_⟩ <;>
  · have h := claim3_metadata_before_records.2
      [("end", metaElemOk)] [("end", recordPassElem), ("end", recordFailElem)] policyElem
      ⟨some "ex.org", "7Fx3", some 100, some 200, some "ex.org", 1, 1,
       [(some "softfail", 1)], [(some "fail", 1)], "softfail=1", "fail=1"⟩
      (by
        intro ev hev
        rw [List.mem_singleton] at hev
        subst hev
        simp [metaElemOk, XmlElem.tag])
      (by rfl) (by rfl)
    first
      | exact h.1
      | exact h.2

/-- Claim C4: normalisation truncates at the first `@` (dropping it and
everything after) and then strips an `organisation + "."` prefix from the
result of that truncation, never from the original value; in particular
`"google.com.xf83a"` with organisation `"google.com"` gives `"xf83a"`,
and `"2021.report1@mx.example.com"` gives `"2021.report1"`. -/
theorem claim4_normalization_steps :
    (∀ (pre suf : List Char) (org : String), '@' ∉ pre →
      normalize ⟨pre ++ '@' :: suf⟩ org = normalize ⟨pre⟩ org) ∧
    normalize "google.com.xf83a" "google.com" = "xf83a" ∧
    normalize "2021.report1@mx.example.com" "google.com" = "2021.report1" := by
  refine ⟨?_, by decide, by decide⟩
  intro pre suf org h
  unfold normalize
  congr 1
  exact normalizeChars_amp pre suf org.toList h

theorem claim4_normalization_steps_witness :
    normalize ⟨['a', 'b'] ++ '@' :: ['c']⟩ "ex" = normalize ⟨['a', 'b']⟩ "ex" :=
  claim4_normalization_steps.1 ['a', 'b'] ['c'] "ex" (by decide)

/-- Claim C5 counterexample: a present but non-numeric
`date_range/begin` text (`"soon"`) does NOT leave the field absent with a
successful parse — `int("soon")` raises `ValueError`, which the
`except TypeError` handler of lines 84-87 does not catch, so the whole
parse fails. -/
theorem claim5_counterexample :
    DmarcStatistics.ofEvents [("end", metaElemBadBegin), ("end", policyElem)] =
      .error .valueError := by rfl

/-- A `report_metadata` element with no `date_range/begin` but a numeric
`date_range/end`. -/
def metaElemNoBegin : XmlElem :=
  .mk "report_metadata" none
    [ .mk "org_name" (some "ex.org") []
    , .mk "report_id" (some "7Fx3") []
    , .mk "date_range" none [ .mk "end" (some "200") [] ] ]

/-- Claim C5 as amended: a *missing* `date_range/begin` or
`date_range/end` element — either one alone or both — yields an absent
(not zero) field for exactly the missing timestamp(s) and the metadata
extraction succeeds, with all other fields unaffected; but either element
being present with non-numeric text raises an uncaught `ValueError` and
the parse fails. -/
theorem claim5_timestamp_tolerance :
    (∀ (md : MetaState) (elem : XmlElem),
      findtext elem "date_range/begin" = none →
      findtext elem "date_range/end" = none →
      extractMeta md elem =
        .ok { organisation := findtext elem "org_name"
              report_id := findtext elem "report_id"
              start := none
              end_ := none
              domain := md.domain }) ∧
    (∀ (md : MetaState) (elem : XmlElem) (s : String) (n : Int),
      findtext elem "date_range/begin" = none →
      findtext elem "date_range/end" = some s →
      parsePyInt s = some n →
      extractMeta md elem =
        .ok { organisation := findtext elem "org_name"
              report_id := findtext elem "report_id"
              start := none
              end_ := some n
              domain := md.domain }) ∧
    (∀ (md : MetaState) (elem : XmlElem) (s : String) (n : Int),
      findtext elem "date_range/begin" = some s →
      parsePyInt s = some n →
      findtext elem "date_range/end" = none →
      extractMeta md elem =
        .ok { organisation := findtext elem "org_name"
              report_id := findtext elem "report_id"
              start := some n
              end_ := none
              domain := md.domain }) ∧
    (∀ (md : MetaState) (elem : XmlElem) (s : String),
      findtext elem "date_range/begin" = some s →
      parsePyInt s = none →
      extractMeta md elem = .error .valueError) ∧
    (∀ (md : MetaState) (elem : XmlElem) (s : String),
      findtext elem "date_range/end" = some s →
      parsePyInt s = none →
      (findtext elem "date_range/begin" = none ∨
        ∃ sb nb, findtext elem "date_range/begin" = some sb ∧ parsePyInt sb = some nb) →
      extractMeta md elem = .error .valueError) := by
  refine ⟨?_, ?_, ?_, ?_, ?_⟩
  · intro md elem hb he
    simp [extractMeta, hb, he, tryTimestamp]
  · intro md elem s n hb he hn
    simp [extractMeta, hb, he, hn, tryTimestamp]
  · intro md elem s n hb hn he
    simp [extractMeta, hb, he, hn, tryTimestamp]
  · intro md elem s hb hs
    simp [extractMeta, hb, hs, tryTimestamp]
  · intro md elem s he hs hb
    rcases hb with hb | ⟨sb, nb, hb, hnb⟩
    · simp [extractMeta, hb, he, hs, tryTimestamp]
    · simp [extractMeta, hb, hnb, he, hs, tryTimestamp]

theorem claim5_timestamp_tolerance_witness :
    findtext metaElemNoBegin "date_range/begin" = none ∧
    findtext metaElemNoBegin "date_range/end" = some "200" ∧
    parsePyInt "200" = some 200 ∧
    extractMeta metaInit metaElemNoBegin =
      .ok { organisation := findtext metaElemNoBegin "org_name"
            report_id := findtext metaElemNoBegin "report_id"
            start := none
            end_ := some 200
            domain := metaInit.domain } :=
  ⟨by rfl, by rfl, by rfl,
    claim5_timestamp_tolerance.2.1 metaInit metaElemNoBegin "200" 200
      (by rfl) (by rfl) (by rfl)⟩

/-- A `report_metadata` element whose `org_name` text is empty. -/
def metaElemEmptyOrg : XmlElem :=
  .mk "report_metadata" none
    [ .mk "org_name" (some "") []
    , .mk "report_id" (some "7Fx3") [] ]

/-- Claim C6 counterexample: with an *empty* organisation the program
does not fail at all (there is no `NormalizationError` anywhere in the
code): normalisation succeeds and a complete `DmarcStatistics` is
produced. -/
theorem claim6_counterexample :
    DmarcStatistics.ofEvents [("end", metaElemEmptyOrg), ("end", policyElem)] =
      .ok ⟨some "", "7Fx3", none, none, some "ex.org", 0, 0, [], [], "", ""⟩ := by rfl

/-- Claim C6 as amended: when the organisation is absent (`None`) the
report-id normalisation of lines 62-67 raises a `TypeError` (from
`None + '.'`), not a `NormalizationError`; when the organisation is the
empty string the normalisation succeeds — the prefix check degenerates to
testing for a leading `"."` — and the id is returned unchanged when it has
no `@` and no leading dot. -/
theorem claim6_normalization_errors :
    (∀ rid : String, normalizeStep (some rid) none = .error .typeError) ∧
    (∀ rid : String, rid.toList.contains '@' = false →
      (List.isPrefixOf ['.'] rid.toList) = false →
      normalizeStep (some rid) (some "") = .ok rid) := by
  constructor
  · intro rid
    rfl
  · intro rid h1 h2
    have hn : normalize rid "" = rid := by
      unfold normalize
      rw [normalizeChars_clean rid.toList ("".toList) h1 h2]
      rfl
    simp [normalizeStep, hn]

theorem claim6_normalization_errors_witness :
    normalizeStep (some "7Fx3") (some "") = .ok "7Fx3" :=
  claim6_normalization_errors.2 "7Fx3" (by decide) (by decide)

/-- Claim C9: normalisation is idempotent on already-clean ids — an id
with no `@` that does not start with `organisation + "."` is a fixed
point, so normalising twice equals normalising once. -/
theorem claim9_normalize_idempotent (x org : String)
    (h1 : x.toList.contains '@' = false)
    (h2 : ((org.toList ++ ['.']).isPrefixOf x.toList) = false) :
    normalize (normalize x org) org = normalize x org := by
  have hx : normalize x org = x := by
    unfold normalize
    rw [normalizeChars_clean x.toList org.toList h1 h2]
    rfl
  rw [hx]
  exact hx

theorem claim9_normalize_idempotent_witness :
    normalize (normalize "7Fx3" "ex.org") "ex.org" = normalize "7Fx3" "ex.org" :=
  claim9_normalize_idempotent "7Fx3" "ex.org" (by decide) (by decide)

/-- Claim C10: the record scan reads `row/source_ip` and converts
`row/count` with `int` even though neither value influences the result:
a missing `row/source_ip` raises `AttributeError`, a missing `row/count`
raises `AttributeError`, a non-numeric `row/count` text raises
`ValueError`, and any successful scan forces every `record` close event
to have passed all three checks. -/
theorem claim10_unused_fields_strict :
    (∀ (d : Option String) (st : RecordStats) (rec : XmlElem),
      find rec "row/source_ip" = none →
      parseRecord d st rec = .error .attributeError) ∧
    (∀ (d : Option String) (st : RecordStats) (rec e : XmlElem),
      find rec "row/source_ip" = some e →
      find rec "row/count" = none →
      parseRecord d st rec = .error .attributeError) ∧
    (∀ (d : Option String) (st : RecordStats) (rec e ec : XmlElem) (s : String),
      find rec "row/source_ip" = some e →
      find rec "row/count" = some ec →
      ec.text = some s →
      parsePyInt s = none →
      parseRecord d st rec = .error .valueError) ∧
    (∀ (d : Option String) (evs : List Event) (st st' : RecordStats),
      parse_records d st evs = .ok st' →
      ∀ ev ∈ evs, isRecordEnd ev = true →
        (find ev.2 "row/source_ip").isSome ∧
        ∃ ec s n, find ev.2 "row/count" = some ec ∧ ec.text = some s ∧
          parsePyInt s = some n) := by
  refine ⟨?_, ?_, ?_, ?_⟩
  · intro d st rec hf
    simp [parseRecord, getSource, hf]
  · intro d st rec e hfs hfc
    simp [parseRecord, getSource, getCount, hfs, hfc]
  · intro d st rec e ec s hfs hfc ht hp
    simp [parseRecord, getSource, getCount, hfs, hfc, ht, hp]
  · intro d evs st st' h
    exact parse_records_ok_all_wf d evs st st' h

theorem claim10_unused_fields_strict_witness :
    find recordNoCountElem "row/source_ip" =
      some (.mk "source_ip" (some "203.0.113.9") []) ∧
    find recordNoCountElem "row/count" = none ∧
    parseRecord (some "ex.org") statsInit recordNoCountElem = .error .attributeError := by
  refine ⟨by rfl, by rfl, ?_⟩
  exact claim10_unused_fields_strict.2.1 (some "ex.org") statsInit recordNoCountElem
    (.mk "source_ip" (some "203.0.113.9") []) (by rfl) (by rfl)

end DmarcReporter
